import Mathlib

/-!
Verification of the multiscale-accumulator network generator
(`scripts/nets/macc_net_generator.py`).

The script is a single linear pass over a line-oriented configuration file.
We embed it shallowly:

* Python strings become `List Char`; `str.split()` becomes `splitWs`;
  `float(...)` becomes the decimal parser `parseFloat` (returning `none`
  exactly where Python's `float` raises `ValueError`, an abort);
* Python ints become `ℤ`, Python floats become `ℚ` (the configuration values
  in play are exact decimals); `int(x)` truncation toward zero is `ratTrunc`;
  Python 2 integer division `/` (floor division) is `Int.fdiv`;
* each `_layer_*` emitter of the `MACCNetGenerator` class becomes a function
  from the compiler state (`GenState`, the fields set in `reset`) to the new
  state plus an emitted block; `exit()` on an error path becomes
  `Except.error`;
* an emitted prototxt layer block is modelled by the `Block` type, recording
  the layer name, bottom/top bindings and the numeric parameters that the
  source writes into the block (comment-only text such as the FOV annotation
  of a convolution is kept where a claim refers to it; purely decorative
  separator comments are not modelled).

Generated layer names (`conv_x%d_%d`, `pool_x%d`, `acc_x%d`, `relu_<name>`,
`data`) are injective images of the inductive type `LName`.
-/

namespace MaccGen

/-- Whitespace test matching Python str.split() on the characters that can
occur in these configuration files. -/
def isWsChar (c : Char) : Bool := c == ' ' || c == '\t' || c == '\n' || c == '\r'

/-- Auxiliary accumulator-based splitter; the accumulator holds the current
token reversed. -/
def splitWsAux : List Char → List Char → List (List Char)
  | [], acc => if acc.isEmpty then [] else [acc.reverse]
  | c :: cs, acc =>
    if isWsChar c then
      if acc.isEmpty then splitWsAux cs [] else acc.reverse :: splitWsAux cs []
    else splitWsAux cs (c :: acc)

/-- Python str.split(): split on runs of whitespace, dropping empty tokens. -/
def splitWs (s : List Char) : List (List Char) := splitWsAux s []

/-- Numeric value of a digit string (most significant digit first). -/
def digitsVal (l : List Char) : ℕ := l.foldl (fun a c => 10 * a + (c.toNat - 48)) 0

/-- All characters are decimal digits. -/
def allDigits (l : List Char) : Bool := l.all (fun c => c.isDigit)

/-- Model of Python float() on the unsigned part: digits with at most one
decimal point, at least one digit overall.  Returns none where float()
raises ValueError. -/
def parseUnsigned (s : List Char) : Option ℚ :=
  match s.dropWhile (fun c => c != '.') with
  | [] =>
    if allDigits s && !s.isEmpty then some ((digitsVal s : ℤ) : ℚ) else none
  | _ :: fpTail =>
    if allDigits (s.takeWhile (fun c => c != '.')) && allDigits fpTail &&
        !((s.takeWhile (fun c => c != '.')).isEmpty && fpTail.isEmpty) then
      some ((digitsVal (s.takeWhile (fun c => c != '.')) : ℚ) +
        (digitsVal fpTail : ℚ) / 10 ^ fpTail.length)
    else none

/-- Model of Python float(): optional sign, then `parseUnsigned`. -/
def parseFloat (s : List Char) : Option ℚ :=
  match s with
  | [] => none
  | c :: rest =>
    if c = '-' then (parseUnsigned rest).map (fun q => -q)
    else if c = '+' then parseUnsigned rest
    else parseUnsigned s

/-- Python int() on a rational: truncation toward zero (`Int.div` is
T-division and the denominator is positive). -/
def ratTrunc (q : ℚ) : ℤ := q.num.tdiv (q.den : ℤ)

/-- Ceiling of d / 2 as computed by ceil(d / 2.0) in the source. -/
def ceilHalf (d : ℤ) : ℤ := (d + 1).fdiv 2

/-- Abort causes: a required token id missing from a directive
(get_value_float with required=True printing ERROR and calling exit), a
token whose numeric payload float() cannot parse (ValueError), and a macc
directive whose scale has no recorded convolution (_layer_macc printing
ERROR and calling exit). -/
inductive GenError where
  | requiredMissing (id : Char)
  | valueError
  | maccScale (scale : ℤ)
deriving DecidableEq, Repr

/-- Mode selector bb_type: 'bb3txt' (8 accumulator channels) or 'bbtxt'
(5 channels). -/
inductive BBType where
  | bbtxt
  | bb3txt
deriving DecidableEq, Repr

/-- Layer names as generated by the source's format strings: `data`,
`conv_x<ds>_<id>`, `pool_x<ds>`, `acc_x<scale>`, `relu_<base>`; `lossN` and
`bbN` stand for the `loss_x<scale>` / `bb_x<scale>` tail blocks. -/
inductive LName where
  | dataN
  | conv (ds : ℤ) (id : ℕ)
  | pool (ds : ℤ)
  | acc (scale : ℤ)
  | relu (base : LName)
  | lossN (scale : ℤ)
  | bbN (scale : ℤ)
deriving DecidableEq, Repr

/-- get_value_float: find the first token containing the (single-character)
id and parse the token with its first character stripped; if no token
matches, abort when required, else return none. -/
def get_value_float (data : List (List Char)) (id : Char) (required : Bool) :
    Except GenError (Option ℚ) :=
  match data.find? (fun t => t.any (fun c => c == id)) with
  | some t =>
    match parseFloat (t.drop 1) with
    | some q => Except.ok (some q)
    | none => Except.error GenError.valueError
  | none => if required then Except.error (GenError.requiredMissing id) else Except.ok none

/-- get_value_int: int() of get_value_float. -/
def get_value_int (data : List (List Char)) (id : Char) (required : Bool) :
    Except GenError (Option ℤ) :=
  (get_value_float data id required).map (Option.map ratTrunc)

/-- A required float lookup; the `ok none` case cannot arise when
required=True (the source exits first) but is mapped to the same abort. -/
def reqFloat (data : List (List Char)) (id : Char) : Except GenError ℚ :=
  match get_value_float data id true with
  | Except.ok (some q) => Except.ok q
  | Except.ok none => Except.error (GenError.requiredMissing id)
  | Except.error e => Except.error e

/-- A required int lookup. -/
def reqInt (data : List (List Char)) (id : Char) : Except GenError ℤ :=
  (reqFloat data id).map ratTrunc

/-- An optional int lookup (dilation). -/
def optInt (data : List (List Char)) (id : Char) : Except GenError (Option ℤ) :=
  get_value_int data id false

/-- Global configuration: network name, accumulator radius, circle ratio
and the bb_type mode. -/
structure Config where
  name : String
  radius : ℤ
  circle_ratio : ℚ
  bb_type : BBType
deriving DecidableEq, Repr

/-- Compiler state: exactly the fields assigned in MACCNetGenerator.reset.
The two Python dicts keyed by downsampling factor are association lists
(new bindings are consed on the front, lookup takes the first match, which
matches dict overwrite semantics). -/
structure GenState where
  previous_layer : LName
  downsampling : ℤ
  new_conv_id : ℕ
  last_in_scale : List (ℤ × LName)
  last_in_scale_fov : List (ℤ × ℤ)
  fov_base : ℤ
  fov_previous : ℤ
  fov_prev_downsampling : ℤ
  accs : List LName
  acc_scales : List ℤ
  acc_bbs_ideal : List ℚ
deriving DecidableEq, Repr

/-- The state produced by reset(). -/
def initState : GenState :=
  { previous_layer := LName.dataN
    downsampling := 1
    new_conv_id := 1
    last_in_scale := []
    last_in_scale_fov := []
    fov_base := 1
    fov_previous := 1
    fov_prev_downsampling := 1
    accs := []
    acc_scales := []
    acc_bbs_ideal := [] }

/-- specs[5:].split(): the token list of a directive line. -/
def lineData (l : List Char) : List (List Char) := splitWs (l.drop 5)

/-- Parameters written into a convolution block: name, bottom binding,
num_output, kernel_size, pad, the emitted dilation parameter (source writes
dilation+1 when a dilation token is present), the field of view reported in
the block's comment, and whether the training-only param/filler sub-blocks
are present (train = not deploy). -/
structure ConvParams where
  name : LName
  bottom : LName
  num_output : ℤ
  kernel_size : ℤ
  pad : ℤ
  dilation_param : Option ℤ
  fov : ℤ
  train : Bool
deriving DecidableEq, Repr

/-- A ReLU block is fully determined by the preceding layer: name
relu_<base>, bottom and top both <base>. -/
structure ReluParams where
  base : LName
deriving DecidableEq, Repr

/-- Parameters of a pooling block. -/
structure PoolParams where
  name : LName
  bottom : LName
  kernel_size : ℤ
  stride : ℤ
  poolType : String
deriving DecidableEq, Repr

/-- Parameters of an accumulator head block (a 1x1 convolution). -/
structure AccParams where
  name : LName
  bottom : LName
  num_output : ℤ
  kernel_size : ℤ
  scale : ℤ
  bb_ideal : ℚ
  train : Bool
deriving DecidableEq, Repr

/-- Parameters of a loss block (train_val tail). -/
structure LossParams where
  scale : ℤ
  bottom : LName
  radius : ℤ
  circle_ratio : ℚ
  negative_ratio : ℤ
  bounds_overlap : ℚ
deriving DecidableEq, Repr

/-- Parameters of a decode (bb) block (deploy tail). -/
structure BBParams where
  scale : ℤ
  accName : LName
  ideal_size : ℚ
deriving DecidableEq, Repr

/-- Data-layer phase in the train_val document. -/
inductive Phase where
  | TRAIN
  | TEST
deriving DecidableEq, Repr

/-- One emitted prototxt block. -/
inductive Block where
  | conv (p : ConvParams)
  | relu (p : ReluParams)
  | pool (p : PoolParams)
  | acc (p : AccParams)
  | data (phase : Phase)
  | input
  | loss (p : LossParams)
  | bb (p : BBParams)
deriving DecidableEq, Repr

/-- The name of an emitted block. -/
def blockName : Block → LName
  | Block.conv p => p.name
  | Block.relu p => LName.relu p.base
  | Block.pool p => p.name
  | Block.acc p => p.name
  | Block.data _ => LName.dataN
  | Block.input => LName.dataN
  | Block.loss p => LName.lossN p.scale
  | Block.bb p => LName.bbN p.scale

/-- Shared layers: the network-structure blocks emitted by the directive
pass (convolution, ReLU, pooling, accumulator), as opposed to the
input/data wrapper blocks and the loss/decode tails. -/
def isSharedLayer : Block → Bool
  | Block.conv _ => true
  | Block.relu _ => true
  | Block.pool _ => true
  | Block.acc _ => true
  | _ => false

/-- Effective span added to the base field of view by one convolution
(source lines 223-226): the kernel size when no dilation token is present,
and (d+1)*(k-1)+1 when dilation d is given. -/
def convSpan (k : ℤ) : Option ℤ → ℤ
  | none => k
  | some d => (d + 1) * (k - 1) + 1

/-- Padding of a convolution (source lines 218-220): (k-1)/2 in floor
division, multiplied by d+1 when dilation d is present. -/
def convPad (k : ℤ) : Option ℤ → ℤ
  | none => (k - 1).fdiv 2
  | some d => ((k - 1).fdiv 2) * (d + 1)

/-- _layer_conv: names the layer from the current downsampling factor and
convolution counter, parses o (required), k (required), d (optional),
computes padding and the field of view, and updates previous_layer, the
per-scale tables and the fov accumulators. -/
def layer_conv (_cfg : Config) (st : GenState) (specs : List Char) (deploy : Bool) :
    Except GenError (GenState × ConvParams) :=
  let name := LName.conv st.downsampling st.new_conv_id
  let data := lineData specs
  match reqInt data 'o', reqInt data 'k', optInt data 'd' with
  | Except.ok num_output, Except.ok kernel_size, Except.ok dilation =>
    let pad : ℤ := convPad kernel_size dilation
    let fov_base : ℤ := st.fov_base - 1 + convSpan kernel_size dilation
    let fov : ℤ :=
      fov_base * st.downsampling + st.fov_prev_downsampling - ceilHalf st.downsampling
    Except.ok
      ({ st with
          new_conv_id := st.new_conv_id + 1
          fov_base := fov_base
          fov_previous := fov
          previous_layer := name
          last_in_scale := (st.downsampling, name) :: st.last_in_scale
          last_in_scale_fov := (st.downsampling, fov) :: st.last_in_scale_fov },
        { name := name
          bottom := st.previous_layer
          num_output := num_output
          kernel_size := kernel_size
          pad := pad
          dilation_param := dilation.map (fun d => d + 1)
          fov := fov
          train := !deploy })
  | Except.error e, _, _ => Except.error e
  | _, Except.error e, _ => Except.error e
  | _, _, Except.error e => Except.error e

/-- _layer_pool: doubles the downsampling factor, restarts the convolution
counter, resets fov_base to 1, carries fov_previous into
fov_prev_downsampling, and emits a MAX pooling block with kernel 2 and
stride 2. -/
def layer_pool (st : GenState) : GenState × PoolParams :=
  let ds := st.downsampling * 2
  let name := LName.pool ds
  ({ st with
      downsampling := ds
      new_conv_id := 1
      fov_base := 1
      fov_prev_downsampling := st.fov_previous
      previous_layer := name },
    { name := name
      bottom := st.previous_layer
      kernel_size := 2
      stride := 2
      poolType := "MAX" })

/-- _layer_macc: parses the required scale token x, aborts when no
convolution has been recorded at that downsampling factor, and otherwise
emits a 1x1 convolution reading from the recorded layer, with 8 output
channels in bb3txt mode and 5 in bbtxt mode, appending the accumulator to
the bookkeeping lists.  previous_layer is not touched. -/
def layer_macc (cfg : Config) (st : GenState) (specs : List Char) (deploy : Bool) :
    Except GenError (GenState × AccParams) :=
  let data := lineData specs
  match reqInt data 'x' with
  | Except.error e => Except.error e
  | Except.ok scale =>
    match st.last_in_scale.lookup scale with
    | none => Except.error (GenError.maccScale scale)
    | some bname =>
      let name := LName.acc scale
      let bb_ideal : ℚ := (2 * (cfg.radius : ℚ) + 1) * (scale : ℚ) * (1 / cfg.circle_ratio)
      Except.ok
        ({ st with
            accs := st.accs ++ [name]
            acc_scales := st.acc_scales ++ [scale]
            acc_bbs_ideal := st.acc_bbs_ideal ++ [bb_ideal] },
          { name := name
            bottom := bname
            num_output := if cfg.bb_type = BBType.bb3txt then 8 else 5
            kernel_size := 1
            scale := scale
            bb_ideal := bb_ideal
            train := !deploy })

/-- _add_layer: dispatch on the leading 4 characters of the line; a conv
directive also emits the following ReLU block (whose base is the fresh
convolution layer, previous_layer after the conv step); any other tag is
silently skipped with the state unchanged. -/
def add_layer (cfg : Config) (st : GenState) (line : List Char) (deploy : Bool) :
    Except GenError (GenState × List Block) :=
  let tag := line.take 4
  if tag = ['c', 'o', 'n', 'v'] then
    match layer_conv cfg st line deploy with
    | Except.ok (st', p) => Except.ok (st', [Block.conv p, Block.relu ⟨st'.previous_layer⟩])
    | Except.error e => Except.error e
  else if tag = ['p', 'o', 'o', 'l'] then
    let r := layer_pool st
    Except.ok (r.1, [Block.pool r.2])
  else if tag = ['m', 'a', 'c', 'c'] then
    match layer_macc cfg st line deploy with
    | Except.ok (st', p) => Except.ok (st', [Block.acc p])
    | Except.error e => Except.error e
  else Except.ok (st, [])

/-- The directive loop of generate_prototxt_files: process lines in order,
collecting the emitted blocks; an abort keeps the blocks already written
(the source writes incrementally and exits mid-file). -/
def runLayers (cfg : Config) (deploy : Bool) :
    GenState → List (List Char) → List Block × Except GenError GenState
  | st, [] => ([], Except.ok st)
  | st, l :: ls =>
    match add_layer cfg st l deploy with
    | Except.error e => ([], Except.error e)
    | Except.ok (st', bs) =>
      let r := runLayers cfg deploy st' ls
      (bs ++ r.1, r.2)

/-- _layer_loss: one loss block per recorded accumulator, in order,
referencing the accumulator by name, with the fixed negative ratio 30 and
bounds overlap 0.33. -/
def layer_loss (cfg : Config) (st : GenState) : List Block :=
  ((st.accs.zip st.acc_scales).zip st.acc_bbs_ideal).map
    (fun p => Block.loss
      { scale := p.1.2
        bottom := p.1.1
        radius := cfg.radius
        circle_ratio := cfg.circle_ratio
        negative_ratio := 30
        bounds_overlap := 33 / 100 })

/-- _layer_bb: one decode block per recorded accumulator, in order,
carrying the ideal bounding-box size and the downsampling scale. -/
def layer_bb (_cfg : Config) (st : GenState) : List Block :=
  ((st.accs.zip st.acc_scales).zip st.acc_bbs_ideal).map
    (fun p => Block.bb
      { scale := p.1.2
        accName := p.1.1
        ideal_size := p.2 })

/-- generate_prototxt_files: parse radius (int, token id r, required) and
circle ratio (float, token id c, required) from the second line, then run
the directive list twice from freshly reset state — once for the train_val
document (data layers, network blocks with training parameters, loss tail)
and once for the deploy document (input layer, network blocks, decode
tail).  Any abort yields no document pair. -/
def generate_prototxt_files (bb : BBType) (nm : String) (line2 : List Char)
    (lines : List (List Char)) : Except GenError (List Block × List Block) :=
  match reqInt (splitWs line2) 'r', reqFloat (splitWs line2) 'c' with
  | Except.error e, _ => Except.error e
  | _, Except.error e => Except.error e
  | Except.ok radius, Except.ok circ =>
    let cfg : Config := ⟨nm, radius, circ, bb⟩
    match runLayers cfg false initState lines with
    | (_, Except.error e) => Except.error e
    | (bl1, Except.ok st1) =>
      match runLayers cfg true initState lines with
      | (_, Except.error e) => Except.error e
      | (bl2, Except.ok st2) =>
        Except.ok
          (Block.data Phase.TRAIN :: Block.data Phase.TEST :: (bl1 ++ layer_loss cfg st1),
            Block.input :: (bl2 ++ layer_bb cfg st2))

/-- The only difference the deploy flag makes to an emitted block: the
training-only sub-blocks are dropped (train field set to false). -/
def deployBlock : Block → Block
  | Block.conv p => Block.conv { p with train := false }
  | Block.acc p => Block.acc { p with train := false }
  | b => b

/-! ### Supporting lemmas -/

lemma dropWhile_head_false {α} (p : α → Bool) :
    ∀ (l : List α) (c : α) (rest : List α), l.dropWhile p = c :: rest → p c = false := by
  intro l
  induction l with
  | nil => intro c rest h; simp [List.dropWhile] at h
  | cons a as ih =>
    intro c rest h
    by_cases hpa : p a
    · rw [List.dropWhile_cons_of_pos hpa] at h
      exact ih c rest h
    · rw [List.dropWhile_cons_of_neg hpa] at h
      cases h
      exact Bool.eq_false_iff.mpr hpa

lemma allDigits_eq_false {ch : Char} (hdig : ch.isDigit = false) {s : List Char}
    (hmem : ch ∈ s) : allDigits s = false := by
  rw [allDigits]
  rw [List.all_eq_false]
  exact ⟨ch, hmem, by simp [hdig]⟩

lemma parseUnsigned_eq_none {ch : Char} (hdig : ch.isDigit = false) (hdot : ch ≠ '.')
    {s : List Char} (hmem : ch ∈ s) : parseUnsigned s = none := by
  rw [parseUnsigned]
  split
  · rename_i h
    rw [allDigits_eq_false hdig hmem]
    simp
  · rename_i c fpTail h
    have hsplit : s.takeWhile (fun c => c != '.') ++ (c :: fpTail) = s := by
      rw [← h]
      exact List.takeWhile_append_dropWhile (fun c => c != '.') s
    have hc : c = '.' := by
      have := dropWhile_head_false (fun c => c != '.') s c fpTail h
      simpa using this
    have hmem' : ch ∈ s.takeWhile (fun c => c != '.') ∨ ch ∈ c :: fpTail := by
      rw [← hsplit] at hmem
      exact List.mem_append.mp hmem
    rcases hmem' with hip | hfp
    · rw [allDigits_eq_false hdig hip]
      simp
    · have hmfp : ch ∈ fpTail := by
        rcases List.mem_cons.mp hfp with h1 | hh
        · exact absurd (h1.trans hc) hdot
        · exact hh
      rw [allDigits_eq_false hdig hmfp]
      simp

lemma parseFloat_eq_none {ch : Char} (hdig : ch.isDigit = false) (hdot : ch ≠ '.')
    (hminus : ch ≠ '-') (hplus : ch ≠ '+') {s : List Char} (hmem : ch ∈ s) :
    parseFloat s = none := by
  cases s with
  | nil => simp at hmem
  | cons c rest =>
    rw [parseFloat]
    by_cases hc : c = '-'
    · have : ch ∈ rest := by
        rcases List.mem_cons.mp hmem with rfl | hh
        · exact absurd hc hminus
        · exact hh
      simp [hc, parseUnsigned_eq_none hdig hdot this]
    · by_cases hc' : c = '+'
      · have : ch ∈ rest := by
          rcases List.mem_cons.mp hmem with rfl | hh
          · exact absurd hc' hplus
          · exact hh
        simp [hc, hc', parseUnsigned_eq_none hdig hdot this]
      · simp [hc, hc', parseUnsigned_eq_none hdig hdot hmem]

lemma reqFloat_error_of_no_head {data : List (List Char)} {ch : Char}
    (hdig : ch.isDigit = false) (hdot : ch ≠ '.') (hminus : ch ≠ '-') (hplus : ch ≠ '+')
    (h : ∀ t ∈ data, t.head? ≠ some ch) :
    ∃ e, reqFloat data ch = Except.error e := by
  cases hf : data.find? (fun t => t.any (fun c => c == ch)) with
  | none =>
    exact ⟨GenError.requiredMissing ch, by simp [reqFloat, get_value_float, hf]⟩
  | some t =>
    have hp := List.find?_some hf
    have hmem_t : ch ∈ t := by
      rw [List.any_eq_true] at hp
      obtain ⟨x, hx, hxe⟩ := hp
      rwa [show x = ch by simpa using hxe] at hx
    have ht : t.head? ≠ some ch := h t (List.mem_of_find?_eq_some hf)
    obtain ⟨c, rest, rfl⟩ : ∃ c rest, t = c :: rest := by
      cases t with
      | nil => simp at hmem_t
      | cons c rest => exact ⟨c, rest, rfl⟩
    have hch_rest : ch ∈ rest := by
      rcases List.mem_cons.mp hmem_t with h1 | hh
      · exact absurd (show (c :: rest).head? = some ch by rw [List.head?_cons, h1]) ht
      · exact hh
    have hnone : parseFloat rest = none :=
      parseFloat_eq_none hdig hdot hminus hplus hch_rest
    exact ⟨GenError.valueError, by simp [reqFloat, get_value_float, hf, hnone]⟩

lemma reqInt_error {data : List (List Char)} {ch : Char} {e : GenError}
    (h : reqFloat data ch = Except.error e) : reqInt data ch = Except.error e := by
  simp [reqInt, h, Except.map]

lemma fdiv_two_eq_floor (a : ℤ) : a.fdiv 2 = ⌊((a : ℚ)) / 2⌋ := by
  rw [show ((2 : ℚ)) = (((2 : ℕ)) : ℚ) by norm_num]
  rw [Rat.floor_intCast_div_natCast a 2]
  rw [Int.fdiv_eq_ediv _ (by norm_num)]
  norm_num

lemma ceilHalf_eq_ceil (a : ℤ) : ceilHalf a = ⌈((a : ℚ)) / 2⌉ := by
  rw [ceilHalf, Int.fdiv_eq_ediv _ (by norm_num)]
  have h1 : ⌈((a : ℚ)) / 2⌉ = -⌊-(((a : ℚ)) / 2)⌋ := by
    rw [Int.floor_neg]
    omega
  rw [h1]
  have h2 : -(((a : ℚ)) / 2) = (((-a : ℤ)) : ℚ) / (((2 : ℕ)) : ℚ) := by
    push_cast
    ring
  rw [h2, Rat.floor_intCast_div_natCast (-a) 2]
  simp only [Nat.cast_ofNat]
  omega

lemma layer_conv_deploy (cfg : Config) (st : GenState) (specs : List Char) :
    layer_conv cfg st specs true =
      (layer_conv cfg st specs false).map (fun r => (r.1, { r.2 with train := false })) := by
  rw [layer_conv, layer_conv]
  cases ho : reqInt (lineData specs) 'o' <;>
    cases hk : reqInt (lineData specs) 'k' <;>
      cases hd : optInt (lineData specs) 'd' <;>
        simp [Except.map]

lemma layer_macc_deploy (cfg : Config) (st : GenState) (specs : List Char) :
    layer_macc cfg st specs true =
      (layer_macc cfg st specs false).map (fun r => (r.1, { r.2 with train := false })) := by
  rw [layer_macc, layer_macc]
  cases hx : reqInt (lineData specs) 'x' with
  | error e => simp [Except.map]
  | ok scale =>
    cases hl : st.last_in_scale.lookup scale <;> simp [Except.map, hl]

lemma add_layer_deploy (cfg : Config) (st : GenState) (line : List Char) :
    add_layer cfg st line true =
      (add_layer cfg st line false).map (fun r => (r.1, r.2.map deployBlock)) := by
  rw [add_layer, add_layer]
  by_cases h1 : line.take 4 = ['c', 'o', 'n', 'v']
  · rw [if_pos h1, if_pos h1, layer_conv_deploy]
    cases layer_conv cfg st line false with
    | error e => simp [Except.map]
    | ok r => simp [Except.map, deployBlock]
  · rw [if_neg h1, if_neg h1]
    by_cases h2 : line.take 4 = ['p', 'o', 'o', 'l']
    · rw [if_pos h2, if_pos h2]
      simp [Except.map, deployBlock]
    · rw [if_neg h2, if_neg h2]
      by_cases h3 : line.take 4 = ['m', 'a', 'c', 'c']
      · rw [if_pos h3, if_pos h3, layer_macc_deploy]
        cases layer_macc cfg st line false with
        | error e => simp [Except.map]
        | ok r => simp [Except.map, deployBlock]
      · rw [if_neg h3, if_neg h3]
        simp [Except.map]

lemma runLayers_deploy (cfg : Config) :
    ∀ (lines : List (List Char)) (st : GenState),
      runLayers cfg true st lines =
        ((runLayers cfg false st lines).1.map deployBlock,
          (runLayers cfg false st lines).2) := by
  intro lines
  induction lines with
  | nil => intro st; simp [runLayers]
  | cons l ls ih =>
    intro st
    rw [runLayers, runLayers, add_layer_deploy]
    cases h : add_layer cfg st l false with
    | error e => simp [Except.map]
    | ok r =>
      obtain ⟨st', bs⟩ := r
      simp [Except.map, ih st']

lemma blockName_deployBlock (b : Block) : blockName (deployBlock b) = blockName b := by
  cases b <;> rfl

lemma isSharedLayer_deployBlock (b : Block) :
    isSharedLayer (deployBlock b) = isSharedLayer b := by
  cases b <;> rfl

lemma filter_shared_layer_loss (cfg : Config) (st : GenState) :
    (layer_loss cfg st).filter isSharedLayer = [] := by
  rw [layer_loss, List.filter_map]
  have : (isSharedLayer ∘ fun p : (LName × ℤ) × ℚ => Block.loss
      { scale := p.1.2
        bottom := p.1.1
        radius := cfg.radius
        circle_ratio := cfg.circle_ratio
        negative_ratio := 30
        bounds_overlap := 33 / 100 }) = fun _ => false := by
    funext p
    rfl
  rw [this]
  simp

lemma layer_conv_eq (cfg : Config) (st : GenState) (specs : List Char) (deploy : Bool)
    (o k : ℤ) (dOpt : Option ℤ)
    (ho : reqInt (lineData specs) 'o' = Except.ok o)
    (hk : reqInt (lineData specs) 'k' = Except.ok k)
    (hd : optInt (lineData specs) 'd' = Except.ok dOpt) :
    layer_conv cfg st specs deploy = Except.ok
      ({ st with
          new_conv_id := st.new_conv_id + 1
          fov_base := st.fov_base - 1 + convSpan k dOpt
          fov_previous := (st.fov_base - 1 + convSpan k dOpt) * st.downsampling +
            st.fov_prev_downsampling - ceilHalf st.downsampling
          previous_layer := LName.conv st.downsampling st.new_conv_id
          last_in_scale := (st.downsampling, LName.conv st.downsampling st.new_conv_id) ::
            st.last_in_scale
          last_in_scale_fov := (st.downsampling,
            (st.fov_base - 1 + convSpan k dOpt) * st.downsampling +
              st.fov_prev_downsampling - ceilHalf st.downsampling) :: st.last_in_scale_fov },
        { name := LName.conv st.downsampling st.new_conv_id
          bottom := st.previous_layer
          num_output := o
          kernel_size := k
          pad := convPad k dOpt
          dilation_param := dOpt.map (fun d => d + 1)
          fov := (st.fov_base - 1 + convSpan k dOpt) * st.downsampling +
            st.fov_prev_downsampling - ceilHalf st.downsampling
          train := !deploy }) := by
  simp only [layer_conv, ho, hk, hd]

lemma filter_shared_layer_bb (cfg : Config) (st : GenState) :
    (layer_bb cfg st).filter isSharedLayer = [] := by
  rw [layer_bb, List.filter_map]
  have : (isSharedLayer ∘ fun p : (LName × ℤ) × ℚ => Block.bb
      { scale := p.1.2
        accName := p.1.1
        ideal_size := p.2 }) = fun _ => false := by
    funext p
    rfl
  rw [this]
  simp

/-! ### Claim theorems -/

/-- C7: a directive line whose leading 4-character tag is none of conv,
pool, macc emits no layer block, raises no error, and leaves the compiler
state unchanged. -/
theorem unknown_tag_skipped (cfg : Config) (st : GenState) (line : List Char) (deploy : Bool)
    (h1 : line.take 4 ≠ ['c', 'o', 'n', 'v'])
    (h2 : line.take 4 ≠ ['p', 'o', 'o', 'l'])
    (h3 : line.take 4 ≠ ['m', 'a', 'c', 'c']) :
    add_layer cfg st line deploy = Except.ok (st, []) := by
  simp [add_layer, h1, h2, h3]

/-- Witness for C7 at the directive line `relu hello`. -/
theorem unknown_tag_skipped_witness :
    ("relu hello".toList.take 4 ≠ ['c', 'o', 'n', 'v'] ∧
      "relu hello".toList.take 4 ≠ ['p', 'o', 'o', 'l'] ∧
      "relu hello".toList.take 4 ≠ ['m', 'a', 'c', 'c']) ∧
    add_layer ⟨"n", 1, 1, BBType.bbtxt⟩ initState "relu hello".toList false =
      Except.ok (initState, []) :=
  ⟨⟨by decide, by decide, by decide⟩,
    unknown_tag_skipped ⟨"n", 1, 1, BBType.bbtxt⟩ initState "relu hello".toList false
      (by decide) (by decide) (by decide)⟩

/-- C6: a pool directive doubles the downsampling factor, resets the
per-scale convolution counter to 1 (so the next convolution is numbered 1),
resets fov_base to 1, sets fov_prev_downsampling to the recorded field of
view of the layer preceding the pool (fov_previous), and emits one MAX
pooling block with kernel size 2 and stride 2. -/
theorem pool_step_effects (cfg : Config) (st : GenState) (line : List Char) (deploy : Bool)
    (htag : line.take 4 = ['p', 'o', 'o', 'l']) :
    add_layer cfg st line deploy = Except.ok
      ({ st with
          downsampling := st.downsampling * 2
          new_conv_id := 1
          fov_base := 1
          fov_prev_downsampling := st.fov_previous
          previous_layer := LName.pool (st.downsampling * 2) },
        [Block.pool
          { name := LName.pool (st.downsampling * 2)
            bottom := st.previous_layer
            kernel_size := 2
            stride := 2
            poolType := "MAX" }]) ∧
    (∀ (specs2 : List Char) (st2 : GenState) (p2 : ConvParams),
        layer_conv cfg
            { st with
                downsampling := st.downsampling * 2
                new_conv_id := 1
                fov_base := 1
                fov_prev_downsampling := st.fov_previous
                previous_layer := LName.pool (st.downsampling * 2) } specs2 deploy =
          Except.ok (st2, p2) →
        p2.name = LName.conv (st.downsampling * 2) 1) := by
  constructor
  · have h1 : line.take 4 ≠ ['c', 'o', 'n', 'v'] := by rw [htag]; decide
    simp [add_layer, h1, htag, layer_pool]
  · intro specs2 st2 p2 h
    cases ho : reqInt (lineData specs2) 'o' with
    | error e => simp [layer_conv, ho] at h
    | ok o =>
      cases hk : reqInt (lineData specs2) 'k' with
      | error e => simp [layer_conv, ho, hk] at h
      | ok k =>
        cases hd : optInt (lineData specs2) 'd' with
        | error e => simp [layer_conv, ho, hk, hd] at h
        | ok dOpt =>
          rw [layer_conv_eq cfg _ specs2 deploy o k dOpt ho hk hd] at h
          rw [Except.ok.injEq, Prod.mk.injEq] at h
          rw [← h.2]

/-- Witness for C6 at the directive line `pool` from the reset state. -/
theorem pool_step_effects_witness :
    "pool".toList.take 4 = ['p', 'o', 'o', 'l'] ∧
    add_layer ⟨"n", 1, 1, BBType.bbtxt⟩ initState "pool".toList false =
      Except.ok (⟨LName.pool 2, 2, 1, [], [], 1, 1, 1, [], [], []⟩,
        [Block.pool ⟨LName.pool 2, LName.dataN, 2, 2, "MAX"⟩]) :=
  ⟨by decide,
    (pool_step_effects ⟨"n", 1, 1, BBType.bbtxt⟩ initState "pool".toList false (by decide)).1⟩

/-- C3: a macc directive whose scale has no previously recorded convolution
at that cumulative downsampling factor aborts the run with a fatal error;
no accumulator block is written for it (the run from that line on emits no
block at all). -/
theorem macc_unknown_scale_aborts (cfg : Config) (st : GenState) (line : List Char)
    (deploy : Bool) (scale : ℤ) (rest : List (List Char))
    (htag : line.take 4 = ['m', 'a', 'c', 'c'])
    (hx : reqInt (lineData line) 'x' = Except.ok scale)
    (hnone : st.last_in_scale.lookup scale = none) :
    add_layer cfg st line deploy = Except.error (GenError.maccScale scale) ∧
    runLayers cfg deploy st (line :: rest) = ([], Except.error (GenError.maccScale scale)) := by
  have hm : layer_macc cfg st line deploy = Except.error (GenError.maccScale scale) := by
    simp [layer_macc, hx, hnone]
  have h1 : line.take 4 ≠ ['c', 'o', 'n', 'v'] := by rw [htag]; decide
  have h2 : line.take 4 ≠ ['p', 'o', 'o', 'l'] := by rw [htag]; decide
  have ha : add_layer cfg st line deploy = Except.error (GenError.maccScale scale) := by
    simp [add_layer, h1, h2, htag, hm]
  exact ⟨ha, by simp [runLayers, ha]⟩

/-- Witness for C3 at the directive `macc x2` from the reset state (no
convolution recorded at any scale). -/
theorem macc_unknown_scale_aborts_witness :
    ("macc x2".toList.take 4 = ['m', 'a', 'c', 'c'] ∧
      reqInt (lineData "macc x2".toList) 'x' = Except.ok 2 ∧
      initState.last_in_scale.lookup 2 = none) ∧
    add_layer ⟨"n", 1, 1, BBType.bbtxt⟩ initState "macc x2".toList false =
      Except.error (GenError.maccScale 2) :=
  ⟨⟨by decide, rfl, rfl⟩,
    (macc_unknown_scale_aborts ⟨"n", 1, 1, BBType.bbtxt⟩ initState "macc x2".toList false 2 []
      (by decide) rfl rfl).1⟩

/-- C1: every convolution updates the base field of view by
fov_base := fov_base - 1 + span, where span is the kernel size without a
dilation token and (d+1)*(k-1)+1 with dilation d, and the reported absolute
field of view is fov_base * downsampling + fov_prev_downsampling -
ceil(downsampling/2); in particular `conv k3 o64` followed by
`conv k3 d2 o64` with no pooling reports fields of view 3 and 9. -/
theorem conv_fov_accumulation (cfg : Config) (st : GenState) (specs : List Char)
    (deploy : Bool) (k : ℤ) (dOpt : Option ℤ) (st' : GenState) (p : ConvParams)
    (hk : reqInt (lineData specs) 'k' = Except.ok k)
    (hd : optInt (lineData specs) 'd' = Except.ok dOpt)
    (h : layer_conv cfg st specs deploy = Except.ok (st', p)) :
    st'.fov_base = st.fov_base - 1 + convSpan k dOpt ∧
    convSpan k none = k ∧
    (∀ d : ℤ, convSpan k (some d) = (d + 1) * (k - 1) + 1) ∧
    p.fov = st'.fov_base * st.downsampling + st.fov_prev_downsampling -
      ceilHalf st.downsampling ∧
    ceilHalf st.downsampling = ⌈((st.downsampling : ℚ)) / 2⌉ ∧
    (runLayers ⟨"net", 1, 1, BBType.bbtxt⟩ false initState
        ["conv k3      o64".toList, "conv k3  d2  o64".toList]).1.filterMap
        (fun b => match b with | Block.conv q => some q.fov | _ => none) = [3, 9] := by
  cases ho : reqInt (lineData specs) 'o' with
  | error e => simp [layer_conv, ho] at h
  | ok o =>
    rw [layer_conv_eq cfg st specs deploy o k dOpt ho hk hd] at h
    rw [Except.ok.injEq, Prod.mk.injEq] at h
    obtain ⟨h1, h2⟩ := h
    refine ⟨by rw [← h1], rfl, fun d => rfl, by rw [← h1, ← h2],
      ceilHalf_eq_ceil st.downsampling, by rfl⟩

/-- Witness for C1 at the directive `conv k1 o1` from the reset state. -/
theorem conv_fov_accumulation_witness :
    (reqInt (lineData "conv k1 o1".toList) 'k' = Except.ok 1 ∧
      optInt (lineData "conv k1 o1".toList) 'd' = Except.ok none ∧
      layer_conv ⟨"n", 1, 1, BBType.bbtxt⟩ initState "conv k1 o1".toList false =
        Except.ok
          (⟨LName.conv 1 1, 1, 2, [(1, LName.conv 1 1)], [(1, 1)], 1, 1, 1, [], [], []⟩,
            ⟨LName.conv 1 1, LName.dataN, 1, 1, 0, none, 1, true⟩)) ∧
    (⟨LName.conv 1 1, 1, 2, [(1, LName.conv 1 1)], [(1, 1)], 1, 1, 1, [], [], []⟩ :
        GenState).fov_base = initState.fov_base - 1 + convSpan 1 none :=
  ⟨⟨rfl, rfl, rfl⟩,
    (conv_fov_accumulation ⟨"n", 1, 1, BBType.bbtxt⟩ initState "conv k1 o1".toList false 1 none
      ⟨LName.conv 1 1, 1, 2, [(1, LName.conv 1 1)], [(1, 1)], 1, 1, 1, [], [], []⟩
      ⟨LName.conv 1 1, LName.dataN, 1, 1, 0, none, 1, true⟩ rfl rfl rfl).1⟩

/-- C2: the padding of a convolution with kernel size k ≥ 1 is
floor((k-1)/2) without a dilation token and floor((k-1)/2)*(d+1) with
dilation d; in particular a single `conv k3 o64` yields padding 1. -/
theorem conv_padding_formula (cfg : Config) (st : GenState) (specs : List Char)
    (deploy : Bool) (k : ℤ) (dOpt : Option ℤ) (st' : GenState) (p : ConvParams)
    (_hk1 : 1 ≤ k)
    (hk : reqInt (lineData specs) 'k' = Except.ok k)
    (hd : optInt (lineData specs) 'd' = Except.ok dOpt)
    (h : layer_conv cfg st specs deploy = Except.ok (st', p)) :
    p.pad = convPad k dOpt ∧
    convPad k none = ⌊(((k : ℚ)) - 1) / 2⌋ ∧
    (∀ d : ℤ, convPad k (some d) = ⌊(((k : ℚ)) - 1) / 2⌋ * (d + 1)) ∧
    (runLayers ⟨"net", 1, 1, BBType.bbtxt⟩ false initState
        ["conv k3 o64".toList]).1.filterMap
        (fun b => match b with | Block.conv q => some q.pad | _ => none) = [1] := by
  have hfl : (k - 1).fdiv 2 = ⌊(((k : ℚ)) - 1) / 2⌋ := by
    rw [fdiv_two_eq_floor (k - 1)]
    norm_num
  cases ho : reqInt (lineData specs) 'o' with
  | error e => simp [layer_conv, ho] at h
  | ok o =>
    rw [layer_conv_eq cfg st specs deploy o k dOpt ho hk hd] at h
    rw [Except.ok.injEq, Prod.mk.injEq] at h
    exact ⟨by rw [← h.2], by rw [convPad, hfl], fun d => by rw [convPad, hfl], by rfl⟩

/-- Witness for C2 at the directive `conv k3 o64` from the reset state. -/
theorem conv_padding_formula_witness :
    (1 ≤ (3 : ℤ) ∧
      reqInt (lineData "conv k3 o64".toList) 'k' = Except.ok 3 ∧
      optInt (lineData "conv k3 o64".toList) 'd' = Except.ok none ∧
      layer_conv ⟨"n", 1, 1, BBType.bbtxt⟩ initState "conv k3 o64".toList false =
        Except.ok
          (⟨LName.conv 1 1, 1, 2, [(1, LName.conv 1 1)], [(1, 3)], 3, 3, 1, [], [], []⟩,
            ⟨LName.conv 1 1, LName.dataN, 64, 3, 1, none, 3, true⟩)) ∧
    (⟨LName.conv 1 1, LName.dataN, 64, 3, 1, none, 3, true⟩ : ConvParams).pad =
      convPad 3 none :=
  ⟨⟨by norm_num, rfl, rfl, rfl⟩,
    (conv_padding_formula ⟨"n", 1, 1, BBType.bbtxt⟩ initState "conv k3 o64".toList false 3 none
      ⟨LName.conv 1 1, 1, 2, [(1, LName.conv 1 1)], [(1, 3)], 3, 3, 1, [], [], []⟩
      ⟨LName.conv 1 1, LName.dataN, 64, 3, 1, none, 3, true⟩ (by norm_num) rfl rfl rfl).1⟩

/-- C8: a valid macc directive emits a convolution block of kernel size 1
whose bottom is the convolution last recorded at the requested scale, with
8 output channels in bb3txt mode and 5 in bbtxt mode, and whose ideal
target size is (2*radius+1)*scale/circle_ratio. -/
theorem macc_block_shape (cfg : Config) (st : GenState) (specs : List Char) (deploy : Bool)
    (scale : ℤ) (bname : LName)
    (hx : reqInt (lineData specs) 'x' = Except.ok scale)
    (hfound : st.last_in_scale.lookup scale = some bname) :
    layer_macc cfg st specs deploy = Except.ok
      ({ st with
          accs := st.accs ++ [LName.acc scale]
          acc_scales := st.acc_scales ++ [scale]
          acc_bbs_ideal := st.acc_bbs_ideal ++
            [(2 * (cfg.radius : ℚ) + 1) * (scale : ℚ) * (1 / cfg.circle_ratio)] },
        { name := LName.acc scale
          bottom := bname
          num_output := if cfg.bb_type = BBType.bb3txt then 8 else 5
          kernel_size := 1
          scale := scale
          bb_ideal := (2 * (cfg.radius : ℚ) + 1) * (scale : ℚ) * (1 / cfg.circle_ratio)
          train := !deploy }) ∧
    (2 * (cfg.radius : ℚ) + 1) * (scale : ℚ) * (1 / cfg.circle_ratio) =
      (2 * (cfg.radius : ℚ) + 1) * (scale : ℚ) / cfg.circle_ratio :=
  ⟨by simp [layer_macc, hx, hfound], by rw [mul_one_div]⟩

/-- Witness for C8 at the directive `macc x1` after one convolution at
downsampling 1, in bb3txt mode. -/
theorem macc_block_shape_witness :
    (reqInt (lineData "macc x1".toList) 'x' = Except.ok 1 ∧
      (⟨LName.conv 1 1, 1, 2, [(1, LName.conv 1 1)], [(1, 3)], 3, 3, 1, [], [], []⟩ :
          GenState).last_in_scale.lookup 1 = some (LName.conv 1 1)) ∧
    layer_macc ⟨"w", 1, 1, BBType.bb3txt⟩
        ⟨LName.conv 1 1, 1, 2, [(1, LName.conv 1 1)], [(1, 3)], 3, 3, 1, [], [], []⟩
        "macc x1".toList false =
      Except.ok
        (⟨LName.conv 1 1, 1, 2, [(1, LName.conv 1 1)], [(1, 3)], 3, 3, 1, [LName.acc 1], [1],
            [(2 * ((1 : ℤ) : ℚ) + 1) * ((1 : ℤ) : ℚ) * (1 / (1 : ℚ))]⟩,
          ⟨LName.acc 1, LName.conv 1 1, 8, 1, 1,
            (2 * ((1 : ℤ) : ℚ) + 1) * ((1 : ℤ) : ℚ) * (1 / (1 : ℚ)), true⟩) :=
  ⟨⟨rfl, rfl⟩,
    (macc_block_shape ⟨"w", 1, 1, BBType.bb3txt⟩
      ⟨LName.conv 1 1, 1, 2, [(1, LName.conv 1 1)], [(1, 3)], 3, 3, 1, [], [], []⟩
      "macc x1".toList false 1 (LName.conv 1 1) rfl rfl).1⟩

/-- C10: emitting a macc block leaves previous_layer (and the rest of the
chain bookkeeping) unchanged, so the next convolution takes as its bottom
the layer that preceded the accumulator, not the accumulator itself. -/
theorem macc_preserves_previous_layer (cfg : Config) (st : GenState) (line : List Char)
    (deploy : Bool) (st' : GenState) (bs : List Block)
    (htag : line.take 4 = ['m', 'a', 'c', 'c'])
    (h : add_layer cfg st line deploy = Except.ok (st', bs)) :
    st'.previous_layer = st.previous_layer ∧
    st'.downsampling = st.downsampling ∧
    st'.last_in_scale = st.last_in_scale ∧
    (∀ (specs2 : List Char) (st2 : GenState) (p2 : ConvParams),
        layer_conv cfg st' specs2 deploy = Except.ok (st2, p2) →
        p2.bottom = st.previous_layer) := by
  have h1 : (['m', 'a', 'c', 'c'] : List Char) ≠ ['c', 'o', 'n', 'v'] := by decide
  have h2 : (['m', 'a', 'c', 'c'] : List Char) ≠ ['p', 'o', 'o', 'l'] := by decide
  cases hx : reqInt (lineData line) 'x' with
  | error e => simp [add_layer, h1, h2, htag, layer_macc, hx] at h
  | ok scale =>
    cases hl : st.last_in_scale.lookup scale with
    | none => simp [add_layer, h1, h2, htag, layer_macc, hx, hl] at h
    | some bname =>
      have hm : layer_macc cfg st line deploy = Except.ok
          ({ st with
              accs := st.accs ++ [LName.acc scale]
              acc_scales := st.acc_scales ++ [scale]
              acc_bbs_ideal := st.acc_bbs_ideal ++
                [(2 * (cfg.radius : ℚ) + 1) * (scale : ℚ) * (1 / cfg.circle_ratio)] },
            { name := LName.acc scale
              bottom := bname
              num_output := if cfg.bb_type = BBType.bb3txt then 8 else 5
              kernel_size := 1
              scale := scale
              bb_ideal := (2 * (cfg.radius : ℚ) + 1) * (scale : ℚ) * (1 / cfg.circle_ratio)
              train := !deploy }) := by
        simp [layer_macc, hx, hl]
      simp only [add_layer, h1, h2, htag, hm, if_neg, if_pos, if_true, if_false] at h
      rw [Except.ok.injEq, Prod.mk.injEq] at h
      obtain ⟨hst, hbs⟩ := h
      subst hst
      refine ⟨rfl, rfl, rfl, ?_⟩
      intro specs2 st2 p2 hc
      cases ho : reqInt (lineData specs2) 'o' with
      | error e => simp [layer_conv, ho] at hc
      | ok o =>
        cases hk : reqInt (lineData specs2) 'k' with
        | error e => simp [layer_conv, ho, hk] at hc
        | ok k =>
          cases hdo : optInt (lineData specs2) 'd' with
          | error e => simp [layer_conv, ho, hk, hdo] at hc
          | ok dOpt =>
            rw [layer_conv_eq cfg _ specs2 deploy o k dOpt ho hk hdo] at hc
            rw [Except.ok.injEq, Prod.mk.injEq] at hc
            rw [← hc.2]

/-- Witness for C10 at the directive `macc x1` after one convolution at
downsampling 1. -/
theorem macc_preserves_previous_layer_witness :
    ("macc x1".toList.take 4 = ['m', 'a', 'c', 'c'] ∧
      add_layer ⟨"w", 1, 1, BBType.bb3txt⟩
          ⟨LName.conv 1 1, 1, 2, [(1, LName.conv 1 1)], [(1, 3)], 3, 3, 1, [], [], []⟩
          "macc x1".toList false =
        Except.ok
          (⟨LName.conv 1 1, 1, 2, [(1, LName.conv 1 1)], [(1, 3)], 3, 3, 1, [LName.acc 1], [1],
              [(2 * ((1 : ℤ) : ℚ) + 1) * ((1 : ℤ) : ℚ) * (1 / (1 : ℚ))]⟩,
            [Block.acc
              ⟨LName.acc 1, LName.conv 1 1, 8, 1, 1,
                (2 * ((1 : ℤ) : ℚ) + 1) * ((1 : ℤ) : ℚ) * (1 / (1 : ℚ)), true⟩])) ∧
    (⟨LName.conv 1 1, 1, 2, [(1, LName.conv 1 1)], [(1, 3)], 3, 3, 1, [LName.acc 1], [1],
        [(2 * ((1 : ℤ) : ℚ) + 1) * ((1 : ℤ) : ℚ) * (1 / (1 : ℚ))]⟩ :
      GenState).previous_layer =
      (⟨LName.conv 1 1, 1, 2, [(1, LName.conv 1 1)], [(1, 3)], 3, 3, 1, [], [], []⟩ :
        GenState).previous_layer :=
  ⟨⟨by decide, rfl⟩,
    (macc_preserves_previous_layer ⟨"w", 1, 1, BBType.bb3txt⟩
      ⟨LName.conv 1 1, 1, 2, [(1, LName.conv 1 1)], [(1, 3)], 3, 3, 1, [], [], []⟩
      "macc x1".toList false
      ⟨LName.conv 1 1, 1, 2, [(1, LName.conv 1 1)], [(1, 3)], 3, 3, 1, [LName.acc 1], [1],
        [(2 * ((1 : ℤ) : ℚ) + 1) * ((1 : ℤ) : ℚ) * (1 / (1 : ℚ))]⟩
      [Block.acc
        ⟨LName.acc 1, LName.conv 1 1, 8, 1, 1,
          (2 * ((1 : ℤ) : ℚ) + 1) * ((1 : ℤ) : ℚ) * (1 / (1 : ℚ)), true⟩]
      (by decide) rfl).1⟩

/-- C4 counterexample: the round-trip configuration (name demo, r1 c0.5,
directives `conv k3 o8`, `pool`, `macc x2`) does not compile successfully:
the pool doubles the downsampling to 2 but records no convolution there, so
the macc directive hits the undefined-scale abort. -/
theorem demo_roundtrip_counterexample :
    generate_prototxt_files BBType.bbtxt "demo" "r1 c0.5".toList
        ["conv k3 o8".toList, "pool".toList, "macc x2".toList] =
      Except.error (GenError.maccScale 2) := rfl

/-- C4 amended: for the demo configuration the run aborts with the fatal
macc-scale error at the `macc x2` directive; before the abort exactly one
convolution block (at downsampling 1), its ReLU, and one pooling block have
been emitted, and no accumulator, loss, or decode block is produced. -/
theorem demo_roundtrip_aborts :
    runLayers ⟨"demo", 1, 1 / 2, BBType.bbtxt⟩ false initState
        ["conv k3 o8".toList, "pool".toList, "macc x2".toList] =
      ([Block.conv ⟨LName.conv 1 1, LName.dataN, 8, 3, 1, none, 3, true⟩,
          Block.relu ⟨LName.conv 1 1⟩,
          Block.pool ⟨LName.pool 2, LName.conv 1 1, 2, 2, "MAX"⟩],
        Except.error (GenError.maccScale 2)) := rfl

/-- C5: whenever both documents are produced, they carry the identical
ordered sequence of shared layer names (convolution, ReLU, pooling,
accumulator), ignoring the input/data wrappers and the loss/decode tails,
because both passes run the same directive list from freshly reset state
and the deploy flag only toggles training-only parameters. -/
theorem shared_layer_names_agree (bb : BBType) (nm : String) (line2 : List Char)
    (lines : List (List Char)) (t d : List Block)
    (h : generate_prototxt_files bb nm line2 lines = Except.ok (t, d)) :
    (t.filter isSharedLayer).map blockName = (d.filter isSharedLayer).map blockName := by
  have key : ∀ l : List Block,
      ((l.map deployBlock).filter isSharedLayer).map blockName =
        (l.filter isSharedLayer).map blockName := by
    intro l
    rw [List.filter_map, List.map_map]
    rw [show isSharedLayer ∘ deployBlock = isSharedLayer from funext isSharedLayer_deployBlock]
    rw [show blockName ∘ deployBlock = blockName from funext blockName_deployBlock]
  cases hr : reqInt (splitWs line2) 'r' with
  | error e => simp [generate_prototxt_files, hr] at h
  | ok radius =>
    cases hc : reqFloat (splitWs line2) 'c' with
    | error e => simp [generate_prototxt_files, hr, hc] at h
    | ok circ =>
      rcases hrun : runLayers ⟨nm, radius, circ, bb⟩ false initState lines with ⟨bl1, r1⟩
      cases r1 with
      | error e => simp [generate_prototxt_files, hr, hc, hrun] at h
      | ok st1 =>
        have hrun2 := runLayers_deploy ⟨nm, radius, circ, bb⟩ lines initState
        rw [hrun] at hrun2
        simp only [generate_prototxt_files, hr, hc, hrun, hrun2] at h
        rw [Except.ok.injEq, Prod.mk.injEq] at h
        obtain ⟨ht, hd⟩ := h
        subst ht
        subst hd
        rw [List.filter_cons, List.filter_cons, List.filter_cons]
        simp only [isSharedLayer, if_false, Bool.false_eq_true, if_neg]
        rw [List.filter_append, List.filter_append]
        rw [filter_shared_layer_loss, filter_shared_layer_bb]
        rw [List.append_nil, List.append_nil]
        exact (key bl1).symm

/-- Witness for C5 at the configuration r1 c1 with the single directive
`conv k3 o8`. -/
theorem shared_layer_names_agree_witness :
    generate_prototxt_files BBType.bbtxt "n" "r1 c1".toList ["conv k3 o8".toList] =
      Except.ok
        ([Block.data Phase.TRAIN, Block.data Phase.TEST,
            Block.conv ⟨LName.conv 1 1, LName.dataN, 8, 3, 1, none, 3, true⟩,
            Block.relu ⟨LName.conv 1 1⟩],
          [Block.input,
            Block.conv ⟨LName.conv 1 1, LName.dataN, 8, 3, 1, none, 3, false⟩,
            Block.relu ⟨LName.conv 1 1⟩]) ∧
    (([Block.data Phase.TRAIN, Block.data Phase.TEST,
          Block.conv ⟨LName.conv 1 1, LName.dataN, 8, 3, 1, none, 3, true⟩,
          Block.relu ⟨LName.conv 1 1⟩].filter isSharedLayer).map blockName =
      ([Block.input,
          Block.conv ⟨LName.conv 1 1, LName.dataN, 8, 3, 1, none, 3, false⟩,
          Block.relu ⟨LName.conv 1 1⟩].filter isSharedLayer).map blockName) :=
  ⟨rfl,
    shared_layer_names_agree BBType.bbtxt "n" "r1 c1".toList ["conv k3 o8".toList]
      [Block.data Phase.TRAIN, Block.data Phase.TEST,
        Block.conv ⟨LName.conv 1 1, LName.dataN, 8, 3, 1, none, 3, true⟩,
        Block.relu ⟨LName.conv 1 1⟩]
      [Block.input,
        Block.conv ⟨LName.conv 1 1, LName.dataN, 8, 3, 1, none, 3, false⟩,
        Block.relu ⟨LName.conv 1 1⟩] rfl⟩

/-- C9: if the second configuration line has no token prefixed r or no
token prefixed c, the run aborts with an error and no document pair is
produced. -/
theorem missing_radius_or_ratio_aborts (bb : BBType) (nm : String) (line2 : List Char)
    (lines : List (List Char))
    (h : (∀ t ∈ splitWs line2, t.head? ≠ some 'r') ∨
      (∀ t ∈ splitWs line2, t.head? ≠ some 'c')) :
    ∃ e, generate_prototxt_files bb nm line2 lines = Except.error e := by
  rcases h with h | h
  · obtain ⟨e, he⟩ := reqFloat_error_of_no_head (by decide) (by decide) (by decide) (by decide) h
    exact ⟨e, by simp [generate_prototxt_files, reqInt_error he]⟩
  · cases hr : reqInt (splitWs line2) 'r' with
    | error e => exact ⟨e, by simp [generate_prototxt_files, hr]⟩
    | ok radius =>
      obtain ⟨e, he⟩ := reqFloat_error_of_no_head (by decide) (by decide) (by decide) (by decide) h
      exact ⟨e, by simp [generate_prototxt_files, hr, he]⟩

/-- Witness for C9 at a second line whose tokens are q1 and c0.5 (no token
prefixed r). -/
theorem missing_radius_or_ratio_aborts_witness :
    (∀ t ∈ splitWs "q1 c0.5".toList, t.head? ≠ some 'r') ∧
    ∃ e, generate_prototxt_files BBType.bbtxt "n" "q1 c0.5".toList ["conv k3 o8".toList] =
      Except.error e :=
  ⟨by decide,
    missing_radius_or_ratio_aborts BBType.bbtxt "n" "q1 c0.5".toList ["conv k3 o8".toList]
      (Or.inl (by decide))⟩

end MaccGen
